import Mathlib

/-!
Shallow embedding of `rasa/nlu/utils/spacy_utils.py` (class `SpacyNLP`).

The external spaCy library is modelled abstractly: `spacy.load` becomes a
function parameter `String → Option Language` (returning `none` where the
Python call raises `OSError`), `nlp.pipe` becomes a function parameter
`List String → List Doc`, and a spaCy `Doc` is an opaque token list whose
only observable used by the source is its length.  Python exceptions are
modelled with `Except PyError`; Python dicts with association lists whose
insertion semantics (`dinsert`) mirror CPython's insertion-ordered,
replace-in-place dictionaries; `sorted` is modelled by Mathlib's stable
`List.insertionSort`, matching Python's stable key sort (the integer keys
are distinct, so Python's tuple comparison never reaches the values).
-/

namespace SpacyUtils

/-- A spaCy `Doc`, abstracted to its token list; `len(doc)` is `Doc.length`.
An empty `Doc(vocab)` is `[]`. -/
abbrev Doc := List String

/-- Values held by the merge dictionary in `_merge_content_lists`: the
Python dict first maps indices to the raw training-sample strings and is
then updated with processed `Doc`s, so its values are heterogeneous. -/
inductive DVal where
  | txt : String → DVal
  | doc : Doc → DVal
deriving DecidableEq, Repr

/-- A loaded spaCy `Language` model handle: the source reads `nlp.path`
(set to `None` by spaCy when the model was not loaded from disk) and
`nlp.lang`. -/
structure Language where
  path : Option String
  lang : String
deriving DecidableEq, Repr

/-- Python exception classes raised (or claimed to be raised) around this
component.  `exception` is the built-in `Exception`; `typeError` is the
built-in `TypeError` raised when `str + None` is evaluated. -/
inductive PyError where
  | modelNotFoundError : String → PyError
  | invalidModelError : String → PyError
  | typeError : String → PyError
  | nameError : String → PyError
  | exception : String → PyError
deriving DecidableEq, Repr

/-- Recognizer for `ModelNotFoundError` results. -/
def isModelNotFoundError {α : Type} : Except PyError α → Bool
  | .error (.modelNotFoundError _) => true
  | _ => false

/-- Recognizer for `InvalidModelError` results. -/
def isInvalidModelError {α : Type} : Except PyError α → Bool
  | .error (.invalidModelError _) => true
  | _ => false

/-- A rasa `Message` / training example: a mutable record of typed
attributes.  The source reads raw-text attributes with `Message.get` and
writes spaCy docs under the distinct keys `SPACY_DOCS[attr]`; since
that key map is injective and disjoint from the text-attr keys, the
doc slots are modelled as a second association list keyed by the
attr itself. -/
structure Message where
  attrs : List (String × String)
  docs : List (String × DVal)
deriving DecidableEq, Repr

/-- Model of `Message.get(attr)`: `None` when the attr is unset. -/
def msgGet (m : Message) (attr : String) : Option String :=
  m.attrs.lookup attr

/-- Reading the doc slot `SPACY_DOCS[attr]` of a message. -/
def msgGetDoc (m : Message) (attr : String) : Option DVal :=
  m.docs.lookup attr

/-- Model of `Message.set(SPACY_DOCS[attr], value)`: overwrite the doc slot. -/
def msgSetDoc (m : Message) (attr : String) (v : DVal) : Message :=
  { m with docs := (attr, v) :: m.docs }

/-- Python `str.lower()`, modelled character-wise at the ASCII level
(`Char.toLower` on each character). -/
def strLower (s : String) : String :=
  String.mk (s.data.map Char.toLower)

/-- Model of `SpacyNLP._preprocess_text` (lines 118-128): `None` becomes `""`; the
text is returned unchanged when `case_sensitive` is set and lower-cased
otherwise. -/
def preprocessText (caseSensitive : Bool) (text : Option String) : String :=
  let t := text.getD ""
  if caseSensitive then t else strLower t

/-- Model of `SpacyNLP._load_model` (lines 44-58): `spacy.load` is the abstract
loader parameter, `none` standing for the `OSError` the except-clause
catches.  The except-clause then evaluates an `InvalidModelError` call
whose argument is the remediation message — the model is not linked,
please download and/or link a spaCy model via the spacy download/link
commands — but `InvalidModelError` is imported only inside the
`if typing.TYPE_CHECKING:` block (lines 15-18) and nothing else binds that
name at runtime, so evaluating the raise-expression itself raises
`NameError` — the intended typed error is never constructed and its
remediation message never produced. -/
def loadModel (spacyLoad : String → Option Language) (spacyModelName : String) :
    Except PyError Language :=
  match spacyLoad spacyModelName with
  | some nlp => .ok nlp
  | none => .error (.nameError "name 'InvalidModelError' is not defined")

/-- Model of `SpacyNLP._ensure_proper_language_model` (lines 275-295): raises the
built-in `Exception` when the handle is `None` or its `path` is `None`. -/
def ensureProperLanguageModel (nlp : Option Language) : Except PyError Unit :=
  match nlp with
  | none => .error (.exception
      "Failed to load spacy language model. Loading the model returned 'None'.")
  | some n =>
    match n.path with
    | none => .error (.exception
        ("Failed to load spacy language model for lang '" ++ n.lang ++
          "'. Make sure you have downloaded the correct model (https://spacy.io/docs/usage/)."))
    | some _ => .ok ()

/-- Python `dict.get(key, default)` over an association list whose stored
values may themselves be `None` (the component defaults set
`"model": None`): the default applies only when the key is absent. -/
def dictGetD (meta : List (String × Option String)) (key : String)
    (dflt : Option String) : Option String :=
  match meta.lookup key with
  | some v => v
  | none => dflt

/-- Model of `SpacyNLP.cache_key` (lines 97-106): `cls.name + "-" + component_meta.get("model", model_metadata.language)`.
When the stored model value is `None`, the Python string concatenation
raises `TypeError`. -/
def cache_key (clsName : String) (componentMeta : List (String × Option String))
    (language : String) : Except PyError String :=
  match dictGetD componentMeta "model" (some language) with
  | some spacyModelName => .ok (clsName ++ "-" ++ spacyModelName)
  | none => .error (.typeError "can only concatenate str (not NoneType) to str")

/-- The model-name resolution inside `SpacyNLP.create` (lines 83-88):
`component_config.get("model")`, falling back to the configured language
when that is `None` or falsy (the empty string). -/
def resolveModelName (configuredModel : Option String) (fallbackLanguage : String) :
    String :=
  match configuredModel with
  | none => fallbackLanguage
  | some s => if s = "" then fallbackLanguage else s

/-- Model of `SpacyNLP._filter_training_samples_by_content` (lines 143-160): the two
`filter` passes over the indexed training samples. -/
def filterTrainingSamplesByContent (indexedTrainingSamples : List (Nat × String)) :
    List (Nat × String) × List (Nat × String) :=
  (indexedTrainingSamples.filter (fun s => s.2 != ""),
   indexedTrainingSamples.filter (fun s => s.2 == ""))

/-- Model of `SpacyNLP._process_content_bearing_samples` (lines 162-178): zip the
samples with whatever list `nlp.pipe` returns and keep `(index, doc)`. -/
def processContentBearingSamples (pipe : List String → List Doc)
    (samplesToPipe : List (Nat × String)) : List (Nat × Doc) :=
  (samplesToPipe.zip (pipe (samplesToPipe.map Prod.snd))).map
    (fun q => (q.1.1, q.2))

/-- Model of `SpacyNLP._process_non_content_bearing_samples` (lines 180-192): pair
each empty sample with a fresh empty `Doc(vocab)`. -/
def processNonContentBearingSamples (emptySamples : List (Nat × String)) :
    List (Nat × Doc) :=
  (emptySamples.zip (emptySamples.map (fun _ => ([] : Doc)))).map
    (fun q => (q.1.1, q.2))

/-- One CPython dict insertion: replace the value in place when the key is
present, append otherwise. -/
def dinsert (d : List (Nat × DVal)) (kv : Nat × DVal) : List (Nat × DVal) :=
  if d.any (fun p => p.1 == kv.1) then
    d.map (fun p => if p.1 == kv.1 then (p.1, kv.2) else p)
  else d ++ [kv]

/-- Python `dict(pairs)`. -/
def dictOf (l : List (Nat × DVal)) : List (Nat × DVal) :=
  l.foldl dinsert []

/-- Comparison of merge-dictionary items by key, as Python's tuple `sorted`
behaves on items with distinct integer keys. -/
def keyLe (a b : Nat × DVal) : Prop := a.1 ≤ b.1

instance : DecidableRel keyLe := fun a b => Nat.decLe a.1 b.1

instance : IsTotal (Nat × DVal) keyLe := ⟨fun a b => Nat.le_total a.1 b.1⟩

instance : IsTrans (Nat × DVal) keyLe := ⟨fun _ _ _ => Nat.le_trans⟩

/-- Model of `SpacyNLP._merge_content_lists` (lines 133-141):
`dct = dict(indexed_training_samples); dct.update(dict(doc_lists)); return sorted(dct.items())`. -/
def mergeContentLists (indexedTrainingSamples : List (Nat × String))
    (docLists : List (Nat × Doc)) : List (Nat × DVal) :=
  let dct := dictOf (indexedTrainingSamples.map (fun p => (p.1, DVal.txt p.2)))
  let updated := (docLists.map (fun p => (p.1, DVal.doc p.2))).foldl dinsert dct
  List.insertionSort keyLe updated

/-- The per-attr body of `SpacyNLP._docs_for_training_examples`
(lines 199-219), applied to the already-preprocessed texts of one
attr: enumerate, partition, process both partitions, merge. -/
def attributeDocumentList (pipe : List String → List Doc) (texts : List String) :
    List (Nat × DVal) :=
  let indexedTrainingSamples := texts.enum
  let parts := filterTrainingSamplesByContent indexedTrainingSamples
  mergeContentLists indexedTrainingSamples
    (processContentBearingSamples pipe parts.1 ++
      processNonContentBearingSamples parts.2)

/-- Line 223: strip the indices off the merged list. -/
def docsForAttribute (pipe : List String → List Doc) (texts : List String) :
    List DVal :=
  (attributeDocumentList pipe texts).map Prod.snd

/-- The attachment step in the body of `SpacyNLP.train` (lines 240-246):
`if len(example_attribute_doc): example.set(SPACY_DOCS[attr], example_attribute_doc)`.
Python `len` applies to whichever value the merge produced. -/
def dvalLen : DVal → Nat
  | .txt s => s.length
  | .doc d => d.length

/-- The per-example effect of `SpacyNLP.train` for one attr. -/
def trainApplyDoc (attr : String) (exampleAttributeDoc : DVal)
    (ex : Message) : Message :=
  if dvalLen exampleAttributeDoc ≠ 0 then
    msgSetDoc ex attr exampleAttributeDoc
  else ex

/-- Model of `SpacyNLP.train` (lines 226-246): compute the per-attr document
lists once, then attach to each example in index order. -/
def train (caseSensitive : Bool) (attributes : List String)
    (pipe : List String → List Doc) (examples : List Message) : List Message :=
  let attributeDocs := attributes.map (fun attr =>
    (attr, docsForAttribute pipe
      (examples.map (fun e => preprocessText caseSensitive (msgGet e attr)))))
  attributes.foldl (fun exs attr =>
    let docs := (attributeDocs.lookup attr).getD []
    (exs.enum).map (fun p =>
      match docs[p.1]? with
      | some v => trainApplyDoc attr v p.2
      | none => p.2)) examples

/-- Model of `SpacyNLP._doc_for_text` (lines 115-116): the external model applied to
the preprocessed text. -/
def docForText (caseSensitive : Bool) (nlpFn : String → Doc)
    (text : Option String) : Doc :=
  nlpFn (preprocessText caseSensitive text)

/-- The per-attr body of `SpacyNLP.process` (lines 248-254):
`if message.get(attr): message.set(SPACY_DOCS[attr], self._doc_for_text(message.get(attr)))`.
Python truthiness on an optional string: `None` and `""` are falsy. -/
def processAttr (caseSensitive : Bool) (nlpFn : String → Doc) (m : Message)
    (attr : String) : Message :=
  match msgGet m attr with
  | some t =>
    if t != "" then
      msgSetDoc m attr (DVal.doc (docForText caseSensitive nlpFn (some t)))
    else m
  | none => m

/-- Model of `SpacyNLP.process` over the dense-featurizable attributes. -/
def process (caseSensitive : Bool) (nlpFn : String → Doc)
    (attributes : List String) (m : Message) : Message :=
  attributes.foldl (processAttr caseSensitive nlpFn) m

/-- Claim C3: `_preprocess_text` is total and never fails: it returns `""`
when the text is absent (`None`) under either case-sensitivity setting,
returns the text unchanged when `case_sensitive` is true, returns the
lower-cased text when it is false, and satisfies the spec's examples
`preprocess("HELLO", false) = "hello"` and `preprocess("HELLO", true) = "HELLO"`. -/
theorem C3_preprocess_total :
    (∀ cs : Bool, preprocessText cs none = "") ∧
    (∀ s : String, preprocessText true (some s) = s) ∧
    (∀ s : String, preprocessText false (some s) = strLower s) ∧
    preprocessText false (some "HELLO") = "hello" ∧
    preprocessText true (some "HELLO") = "HELLO" := by
  refine ⟨fun cs => ?_, fun s => rfl, fun s => rfl, by decide, rfl⟩
  cases cs <;> rfl

/-- Claim C7: the model-name resolution in `create` returns the explicit
model name exactly when it is non-empty and the fallback language
otherwise (for an absent or empty configured name); the embedding is a
pure function.  Includes the spec's examples. -/
theorem C7_resolve_model_name :
    (∀ f : String, resolveModelName none f = f) ∧
    (∀ f : String, resolveModelName (some "") f = f) ∧
    (∀ s f : String, s ≠ "" → resolveModelName (some s) f = s) ∧
    resolveModelName (some "") "en" = "en" ∧
    resolveModelName (some "en_core_web_md") "en" = "en_core_web_md" := by
  refine ⟨fun f => rfl, fun f => rfl, fun s f hs => ?_, rfl, by decide⟩
  simp [resolveModelName, hs]

/-- Witness for C7 at the spec's concrete example. -/
theorem C7_resolve_model_name_witness :
    resolveModelName (some "en_core_web_md") "en" = "en_core_web_md" :=
  C7_resolve_model_name.2.2.1 "en_core_web_md" "en" (by decide)

/-- Counterexample for claim C6: with the component meta holding
`"model": None` (exactly the shipped default `defaults = ... "model": None ...`),
`cache_key("adapter", ..., "en")` does not return `"adapter-en"`:
`dict.get("model", language)` returns the stored `None`, and the
concatenation `cls.name + "-" + None` raises `TypeError`. -/
theorem C6_counterexample :
    cache_key "adapter" [("model", none)] "en" ≠ Except.ok "adapter-en" ∧
    cache_key "adapter" [("model", none)] "en" =
      Except.error (PyError.typeError "can only concatenate str (not NoneType) to str") := by
  refine ⟨?_, rfl⟩
  intro h
  simp [cache_key, dictGetD] at h

/-- Claim C6 (amended): `cache_key` returns `componentName ++ "-" ++ model`
when the `"model"` key holds a non-null value, and
`componentName ++ "-" ++ fallbackLanguage` when the key is absent; when the
key is present but holds `None`, the concatenation fails with `TypeError`
instead of falling back to the language. -/
theorem C6_cache_key_amended :
    ∀ (clsName language modelName : String) (meta : List (String × Option String)),
    (meta.lookup "model" = none →
      cache_key clsName meta language = Except.ok (clsName ++ "-" ++ language)) ∧
    (meta.lookup "model" = some (some modelName) →
      cache_key clsName meta language = Except.ok (clsName ++ "-" ++ modelName)) ∧
    (meta.lookup "model" = some none →
      ∃ msg, cache_key clsName meta language = Except.error (PyError.typeError msg)) := by
  intro clsName language modelName meta
  refine ⟨fun h => ?_, fun h => ?_, fun h => ?_⟩
  · simp [cache_key, dictGetD, h]
  · simp [cache_key, dictGetD, h]
  · exact ⟨"can only concatenate str (not NoneType) to str",
      by simp [cache_key, dictGetD, h]⟩

/-- Witness for C6 (amended), exercising all three branches. -/
theorem C6_cache_key_amended_witness :
    cache_key "adapter" [] "en" = Except.ok ("adapter" ++ "-" ++ "en") ∧
    cache_key "adapter" [("model", some "de")] "en" =
      Except.ok ("adapter" ++ "-" ++ "de") ∧
    ∃ msg, cache_key "adapter" [("model", none)] "en" =
      Except.error (PyError.typeError msg) :=
  ⟨(C6_cache_key_amended "adapter" "en" "de" []).1 rfl,
   (C6_cache_key_amended "adapter" "en" "de" [("model", some "de")]).2.1 rfl,
   (C6_cache_key_amended "adapter" "en" "de" [("model", none)]).2.2 rfl⟩

/-- Claim C4 (code bug): at a failing input — a model name the external
loader reports absent/unlinked (`OSError`) — `_load_model` raises neither
the `ModelNotFoundError` the claim states nor the `InvalidModelError` the
code plainly intends: the `except OSError` clause evaluates the name
`InvalidModelError`, which is bound only under `typing.TYPE_CHECKING`
(line 18), so the call actually raises `NameError` and the remediation
message is never produced. -/
theorem C4_load_model_name_error :
    loadModel (fun _ => none) "my_model" =
      Except.error (PyError.nameError "name 'InvalidModelError' is not defined") ∧
    isModelNotFoundError (loadModel (fun _ => none) "my_model") = false ∧
    isInvalidModelError (loadModel (fun _ => none) "my_model") = false :=
  ⟨rfl, rfl, rfl⟩

/-- Counterexample for claim C5: a handle with unset path makes
`_ensure_proper_language_model` raise the plain built-in `Exception`, not
`InvalidModelError`; likewise for a `None` handle. -/
theorem C5_counterexample :
    isInvalidModelError
      (ensureProperLanguageModel (some { path := none, lang := "en" })) = false ∧
    ensureProperLanguageModel (some { path := none, lang := "en" }) =
      Except.error (PyError.exception
        "Failed to load spacy language model for lang 'en'. Make sure you have downloaded the correct model (https://spacy.io/docs/usage/).") ∧
    isInvalidModelError (ensureProperLanguageModel none) = false :=
  ⟨rfl, rfl, rfl⟩

/-- Claim C5 (amended): `_ensure_proper_language_model` raises an exception
if and only if the handle is `None` or the handle's on-disk path is unset
— but the exception raised is the plain built-in `Exception`, never
`InvalidModelError`; otherwise it returns without effect. -/
theorem C5_ensure_proper_language_model_amended :
    ∀ nlp : Option Language,
    ((∃ msg, ensureProperLanguageModel nlp = Except.error (PyError.exception msg)) ↔
      (nlp = none ∨ ∃ L, nlp = some L ∧ L.path = none)) ∧
    isInvalidModelError (ensureProperLanguageModel nlp) = false ∧
    ((ensureProperLanguageModel nlp = Except.ok ()) ↔
      ∃ L p, nlp = some L ∧ L.path = some p) := by
  intro nlp
  rcases nlp with _ | L
  · simp [ensureProperLanguageModel, isInvalidModelError]
  · rcases hL : L.path with _ | p <;>
      simp [ensureProperLanguageModel, hL, isInvalidModelError]

/-- Folding fresh-keyed pairs into a dict appends them in order. -/
theorem foldl_dinsert_of_disjoint :
    ∀ (l acc : List (Nat × DVal)),
    (∀ k ∈ l.map Prod.fst, k ∉ acc.map Prod.fst) →
    (l.map Prod.fst).Nodup →
    l.foldl dinsert acc = acc ++ l := by
  intro l
  induction l with
  | nil => intro acc _ _; simp
  | cons x l ih =>
    intro acc hdisj hnodup
    have hx : x.1 ∉ acc.map Prod.fst :=
      hdisj x.1 (by simp)
    have hany : acc.any (fun p => p.1 == x.1) = false := by
      rw [List.any_eq_false]
      intro p hp
      simp only [beq_iff_eq]
      intro hpe
      exact hx (List.mem_map.mpr ⟨p, hp, hpe⟩)
    have hstep : dinsert acc x = acc ++ [x] := by
      simp [dinsert, hany]
    have hnd := hnodup
    rw [List.map_cons, List.nodup_cons] at hnd
    have hrec := ih (acc ++ [x])
      (by
        intro k hk
        rw [List.map_append, List.mem_append]
        rintro (hka | hkx)
        · exact hdisj k (by simp [hk]) hka
        · simp only [List.map_cons] at hkx
          simp at hkx
          exact hnd.1 (hkx ▸ hk))
      hnd.2
    calc (x :: l).foldl dinsert acc = l.foldl dinsert (dinsert acc x) := rfl
      _ = l.foldl dinsert (acc ++ [x]) := by rw [hstep]
      _ = (acc ++ [x]) ++ l := hrec
      _ = acc ++ x :: l := by simp

/-- Updating a dict at keys it already holds leaves its key sequence
unchanged. -/
theorem foldl_dinsert_keys_of_subset :
    ∀ (docs d : List (Nat × DVal)),
    (∀ k ∈ docs.map Prod.fst, k ∈ d.map Prod.fst) →
    (docs.foldl dinsert d).map Prod.fst = d.map Prod.fst := by
  intro docs
  induction docs with
  | nil => intro d _; rfl
  | cons x docs ih =>
    intro d hsub
    have hx : x.1 ∈ d.map Prod.fst := hsub x.1 (by simp)
    have hany : d.any (fun p => p.1 == x.1) = true := by
      rw [List.any_eq_true]
      obtain ⟨p, hp, hpe⟩ := List.mem_map.mp hx
      exact ⟨p, hp, by simp [hpe]⟩
    have hstep : dinsert d x =
        d.map (fun p => if p.1 == x.1 then (p.1, x.2) else p) := by
      simp [dinsert, hany]
    have hkeys :
        (d.map (fun p => if p.1 == x.1 then (p.1, x.2) else p)).map Prod.fst =
          d.map Prod.fst := by
      rw [List.map_map]
      apply List.map_congr_left
      intro p _
      by_cases hpe : p.1 == x.1 <;> simp [Function.comp, hpe]
    have hfold : (x :: docs).foldl dinsert d =
        docs.foldl dinsert
          (d.map (fun p => if p.1 == x.1 then (p.1, x.2) else p)) := by
      show docs.foldl dinsert (dinsert d x) = _
      rw [hstep]
    rw [hfold,
      ih _ (by intro k hk; rw [hkeys]; exact hsub k (by simp [hk])), hkeys]

/-- The indices `_process_content_bearing_samples` emits all come from its
input samples (zipping can only drop indices, never invent them). -/
theorem keys_processContentBearingSamples
    (pipe : List String → List Doc) (samples : List (Nat × String)) :
    ∀ k ∈ (processContentBearingSamples pipe samples).map Prod.fst,
      k ∈ samples.map Prod.fst := by
  intro k hk
  simp only [processContentBearingSamples, List.map_map, List.mem_map,
    Function.comp] at hk
  obtain ⟨⟨⟨i, t⟩, dd⟩, hq, rfl⟩ := hk
  exact List.mem_map.mpr ⟨(i, t), (List.of_mem_zip hq).1, rfl⟩

/-- Likewise for `_process_non_content_bearing_samples`. -/
theorem keys_processNonContentBearingSamples
    (emptySamples : List (Nat × String)) :
    ∀ k ∈ (processNonContentBearingSamples emptySamples).map Prod.fst,
      k ∈ emptySamples.map Prod.fst := by
  intro k hk
  simp only [processNonContentBearingSamples, List.map_map, List.mem_map,
    Function.comp] at hk
  obtain ⟨⟨⟨i, t⟩, dd⟩, hq, rfl⟩ := hk
  exact List.mem_map.mpr ⟨(i, t), (List.of_mem_zip hq).1, rfl⟩

/-- Claim C1: the merged output of the batch pipeline — stable partition
into empty and content-bearing samples, processing each partition, then
`_merge_content_lists` — is sorted ascending by index with exactly one
entry per input index `0..n-1`, i.e. its index sequence is exactly
`range n`, so the output order equals the original input order, for any
split of empty vs non-empty entries and any behaviour of the external
batch call. -/
theorem C1_merge_restores_order :
    ∀ (pipe : List String → List Doc) (texts : List String),
    (attributeDocumentList pipe texts).map Prod.fst =
      List.range texts.length := by
  intro pipe texts
  set n := texts.length with hn
  set indexed := texts.enum with hindexed
  set parts := filterTrainingSamplesByContent indexed with hparts
  set docs := processContentBearingSamples pipe parts.1 ++
    processNonContentBearingSamples parts.2 with hdocs
  have hidxkeys : indexed.map Prod.fst = List.range n := List.enum_map_fst texts
  -- keys of the injected indexed list
  have hinj1 : (indexed.map (fun p => (p.1, DVal.txt p.2))).map Prod.fst =
      List.range n := by
    rw [List.map_map]
    calc indexed.map (Prod.fst ∘ fun p => (p.1, DVal.txt p.2)) =
        indexed.map Prod.fst := List.map_congr_left (fun p _ => rfl)
      _ = List.range n := hidxkeys
  -- building the first dict appends everything (indices are distinct)
  have hdict : dictOf (indexed.map (fun p => (p.1, DVal.txt p.2))) =
      indexed.map (fun p => (p.1, DVal.txt p.2)) := by
    have := foldl_dinsert_of_disjoint (indexed.map (fun p => (p.1, DVal.txt p.2))) []
      (by intro k _ hk; simp at hk) (by rw [hinj1]; exact List.nodup_range n)
    simpa [dictOf] using this
  -- every doc index is an index of the input batch
  have hdockeys : ∀ k ∈ (docs.map (fun p => (p.1, DVal.doc p.2))).map Prod.fst,
      k ∈ List.range n := by
    intro k hk
    rw [List.map_map] at hk
    obtain ⟨p, hp, rfl⟩ := List.mem_map.mp hk
    have hp' : p.1 ∈ docs.map Prod.fst := List.mem_map.mpr ⟨p, hp, rfl⟩
    rw [hdocs, List.map_append, List.mem_append] at hp'
    rw [← hidxkeys]
    rcases hp' with hc | hnc
    · have := keys_processContentBearingSamples pipe parts.1 p.1 hc
      rw [hparts] at this
      exact List.map_subset Prod.fst (List.filter_sublist indexed).subset this
    · have := keys_processNonContentBearingSamples parts.2 p.1 hnc
      rw [hparts] at this
      exact List.map_subset Prod.fst (List.filter_sublist indexed).subset this
  -- updating the dict with the processed docs keeps the key sequence
  have hupd : ((docs.map (fun p => (p.1, DVal.doc p.2))).foldl dinsert
      (dictOf (indexed.map (fun p => (p.1, DVal.txt p.2))))).map Prod.fst =
      List.range n := by
    rw [foldl_dinsert_keys_of_subset _ _
      (by intro k hk; rw [hdict, hinj1]; exact hdockeys k hk)]
    rw [hdict]; exact hinj1
  -- sorting a list whose key sequence is `range n` leaves it `range n`
  show (List.insertionSort keyLe _).map Prod.fst = List.range n
  have hperm := List.perm_insertionSort keyLe
    ((docs.map (fun p => (p.1, DVal.doc p.2))).foldl dinsert
      (dictOf (indexed.map (fun p => (p.1, DVal.txt p.2)))))
  have hsorted := List.sorted_insertionSort keyLe
    ((docs.map (fun p => (p.1, DVal.doc p.2))).foldl dinsert
      (dictOf (indexed.map (fun p => (p.1, DVal.txt p.2)))))
  have hmapperm : List.Perm
      ((List.insertionSort keyLe
        ((docs.map (fun p => (p.1, DVal.doc p.2))).foldl dinsert
          (dictOf (indexed.map (fun p => (p.1, DVal.txt p.2)))))).map Prod.fst)
      (List.range n) := by
    have := hperm.map Prod.fst
    rwa [hupd] at this
  have hmapsorted :
      ((List.insertionSort keyLe
        ((docs.map (fun p => (p.1, DVal.doc p.2))).foldl dinsert
          (dictOf (indexed.map (fun p => (p.1, DVal.txt p.2)))))).map
            Prod.fst).Sorted (· ≤ ·) :=
    List.pairwise_map.mpr hsorted
  exact List.eq_of_perm_of_sorted hmapperm hmapsorted (List.sorted_le_range n)

/-- Claim C2: `_filter_training_samples_by_content` returns two
subsequences of its input — the samples with non-empty text and the
samples with empty text — each preserving the input's relative order
(they are sublists), with every input sample landing in exactly one of
the two (their concatenation is a permutation of the input, counting
multiplicity); and on the spec's concrete batch it returns exactly the
stated partitions. -/
theorem C2_filter_partition :
    (∀ l : List (Nat × String),
      List.Sublist (filterTrainingSamplesByContent l).1 l ∧
      List.Sublist (filterTrainingSamplesByContent l).2 l ∧
      List.Perm
        ((filterTrainingSamplesByContent l).1 ++ (filterTrainingSamplesByContent l).2)
        l) ∧
    filterTrainingSamplesByContent [(0, "hello"), (1, ""), (2, "world")] =
      ([(0, "hello"), (2, "world")], [(1, "")]) := by
  constructor
  · intro l
    refine ⟨List.filter_sublist l, List.filter_sublist l, ?_⟩
    have hfun : (fun s : Nat × String => s.2 == "") =
        (fun s : Nat × String => !(s.2 != "")) := by
      funext s
      simp [bne]
    show List.Perm
      (l.filter (fun s => s.2 != "") ++ l.filter (fun s => s.2 == "")) l
    rw [hfun]
    exact List.filter_append_perm (fun s => s.2 != "") l
  · decide

/-- Claim C9: `_process_content_bearing_samples` pairs sample index `i`
with the `i`-th representation returned by the external batch call (the
result is literally the zip of the index list with the returned list),
and when the external call returns a different count than the number of
samples sent, the zip silently truncates to the shorter length — the
function is total, so no error is raised.  The last conjunct shows the
truncation on a concrete batch of two samples answered with one doc. -/
theorem C9_zip_truncates :
    (∀ (pipe : List String → List Doc) (samples : List (Nat × String)),
      processContentBearingSamples pipe samples =
        (samples.map Prod.fst).zip (pipe (samples.map Prod.snd)) ∧
      (processContentBearingSamples pipe samples).length =
        min samples.length (pipe (samples.map Prod.snd)).length) ∧
    processContentBearingSamples (fun _ => [["a"]]) [(0, "x"), (2, "y")] =
      [(0, ["a"])] := by
  refine ⟨fun pipe samples => ⟨?_, ?_⟩, by decide⟩
  · rw [List.zip_map_left]
    rfl
  · simp [processContentBearingSamples]

/-- Claim C8: the attachment step of `train` sets the attribute-specific
doc slot only when the representation has positive length; when the
representation is the empty placeholder the example is returned entirely
unchanged, and in the attaching case the text attributes and every other
doc slot are untouched. -/
theorem C8_train_attach :
    ∀ (attr : String) (v : DVal) (ex : Message),
    (dvalLen v = 0 → trainApplyDoc attr v ex = ex) ∧
    (dvalLen v ≠ 0 →
      msgGetDoc (trainApplyDoc attr v ex) attr = some v ∧
      (trainApplyDoc attr v ex).attrs = ex.attrs ∧
      ∀ a : String, a ≠ attr →
        msgGetDoc (trainApplyDoc attr v ex) a = msgGetDoc ex a) := by
  intro attr v ex
  constructor
  · intro h
    simp [trainApplyDoc, h]
  · intro h
    refine ⟨?_, ?_, ?_⟩
    · simp [trainApplyDoc, h, msgSetDoc, msgGetDoc, List.lookup]
    · simp [trainApplyDoc, h, msgSetDoc]
    · intro a ha
      have hb : (a == attr) = false := by simp [ha]
      simp [trainApplyDoc, h, msgSetDoc, msgGetDoc, List.lookup, hb]

/-- Witness for C8, exercising both the empty-placeholder branch and the
attaching branch at concrete inputs. -/
theorem C8_train_attach_witness :
    trainApplyDoc "text" (DVal.doc []) { attrs := [], docs := [] } =
      { attrs := [], docs := [] } ∧
    msgGetDoc
      (trainApplyDoc "text" (DVal.doc ["hi"])
        { attrs := [("text", "hi")], docs := [] }) "text" =
      some (DVal.doc ["hi"]) :=
  ⟨(C8_train_attach "text" (DVal.doc []) { attrs := [], docs := [] }).1 (by decide),
   ((C8_train_attach "text" (DVal.doc ["hi"])
      { attrs := [("text", "hi")], docs := [] }).2 (by decide)).1⟩

/-- Claim C10: the per-attribute step of `process` attaches a
representation only when the attribute's text is present and non-empty;
when the text is absent (`None`) or empty, the message is returned
entirely unchanged — for every external model function, so no external
call can influence (or be observed in) the result. -/
theorem C10_process_frame :
    ∀ (cs : Bool) (nlpFn : String → Doc) (m : Message) (attr : String),
    (msgGet m attr = none → processAttr cs nlpFn m attr = m) ∧
    (msgGet m attr = some "" → processAttr cs nlpFn m attr = m) ∧
    (∀ t, msgGet m attr = some t → t ≠ "" →
      processAttr cs nlpFn m attr =
        msgSetDoc m attr (DVal.doc (nlpFn (preprocessText cs (some t))))) := by
  intro cs nlpFn m attr
  refine ⟨fun h => ?_, fun h => ?_, fun t ht hne => ?_⟩
  · simp [processAttr, h]
  · simp [processAttr, h]
  · simp [processAttr, ht, hne, docForText]

/-- Witness for C10: absent text and empty text leave a concrete message
unchanged; non-empty text attaches the processed doc. -/
theorem C10_process_frame_witness :
    processAttr false (fun _ => ["tok"]) { attrs := [], docs := [] } "text" =
      { attrs := [], docs := [] } ∧
    processAttr false (fun _ => ["tok"])
      { attrs := [("text", "")], docs := [] } "text" =
      { attrs := [("text", "")], docs := [] } ∧
    processAttr false (fun _ => ["tok"])
      { attrs := [("text", "Hi")], docs := [] } "text" =
      msgSetDoc { attrs := [("text", "Hi")], docs := [] } "text"
        (DVal.doc ((fun _ => ["tok"]) (preprocessText false (some "Hi")))) :=
  ⟨(C10_process_frame false (fun _ => ["tok"])
      { attrs := [], docs := [] } "text").1 rfl,
   (C10_process_frame false (fun _ => ["tok"])
      { attrs := [("text", "")], docs := [] } "text").2.1 rfl,
   (C10_process_frame false (fun _ => ["tok"])
      { attrs := [("text", "Hi")], docs := [] } "text").2.2 "Hi" rfl (by decide)⟩

end SpacyUtils
